import Mathlib

/-!
Verification development for the hardened MCP client core
(`src/client/mcpClient.ts`, config parser `src/config/parser.ts`).

The TypeScript source is shallowly embedded: pure string sanitation becomes
Lean functions on `String`, the stateful façade (`MCPClient`) becomes
explicit state passing over `FacadeState`/`GlobalState`, filesystem access
(`fs.access`) and the asynchronous handshake race become oracles
(`SysEnv.fileOk`, `HandshakeOutcome`), and thrown exceptions become
`Except MCPError`.
-/

/-- Control characters rejected by `CONTROL_CHAR_PATTERN = /[\0\r\n]/`. -/
def isCtrlChar (c : Char) : Bool :=
  c == '\x00' || c == '\r' || c == '\n'

/-- `CONTROL_CHAR_PATTERN.test s`: some character of `s` is NUL, CR or LF. -/
def hasControlChar (s : String) : Bool :=
  s.toList.any isCtrlChar

/-- Characters removed by JavaScript `String.prototype.trim` (the WhiteSpace
and LineTerminator productions; listed here for the code points that can
realistically occur in configuration strings). -/
def isJsSpace (c : Char) : Bool :=
  c == ' ' || c == '\t' || c == '\n' || c == '\r' || c == '\x0b' ||
  c == '\x0c' || c == '\xa0' || c == '\uFEFF' || c == '\u2028' || c == '\u2029'

/-- JavaScript `s.trim()`: drop leading and trailing whitespace. -/
def jsTrim (s : String) : String :=
  String.mk (((s.toList.dropWhile isJsSpace).reverse.dropWhile isJsSpace).reverse)

/-- `PATH_SEPARATOR_PATTERN = /[\\/]/`. -/
def isPathSep (c : Char) : Bool :=
  c == '\\' || c == '/'

/-- Model of JavaScript `String.prototype.split` with a single-character
class regex: split the character list at every separator occurrence
(adjacent separators yield empty segments, as in JS). -/
def splitChars (p : Char → Bool) : List Char → List (List Char)
  | [] => [[]]
  | c :: cs =>
    let r := splitChars p cs
    if p c then [] :: r
    else
      match r with
      | [] => [[c]]
      | s :: rest => (c :: s) :: rest

/-- `s.split(pattern)` for a single-character-class pattern. -/
def splitStr (s : String) (p : Char → Bool) : List String :=
  (splitChars p s.toList).map String.mk

/-- `pre` is a prefix of the second list (decidable, executable). -/
def startsWithSeq : List Char → List Char → Bool
  | [], _ => true
  | _ :: _, [] => false
  | a :: as, b :: bs => a == b && startsWithSeq as bs

/-- `needle` occurs contiguously inside `hay` (Prop form used to state that
an error message "mentions" a command or server label). -/
def strMentions (needle hay : String) : Prop :=
  List.IsInfix needle.toList hay.toList

instance (needle hay : String) : Decidable (strMentions needle hay) := by
  unfold strMentions; infer_instance

/-- `String.toList` distributes over append (definitional). -/
theorem toList_of_append (a b : String) : (a ++ b).toList = a.toList ++ b.toList := rfl

deriving instance DecidableEq for Except

/-- Error values thrown by the embedded code: `ConnectionError` from
`mcpClient.ts`, `ConfigError` from `parser.ts`, and `otherError` for
foreign exceptions (e.g. a transport handshake rejection) that are not
`instanceof ConnectionError`. -/
inductive MCPError where
  | connectionError (msg : String)
  | configError (msg : String)
  | otherError (msg : String)
deriving DecidableEq, Repr

def MAX_COMMAND_LENGTH : Nat := 256
def MAX_ARG_LENGTH : Nat := 2048
def CONNECT_TIMEOUT_MS : Nat := 30000
def MAX_CONCURRENT_CLIENTS : Int := 8

/-- Node `path.isAbsolute` on POSIX (the platform modelled throughout):
the path starts with `/`. -/
def posixIsAbsolute (s : String) : Bool :=
  startsWithSeq "/".toList s.toList

/-- `s.startsWith pre` (JS `String.prototype.startsWith`). -/
def strStartsWith (s pre : String) : Bool :=
  startsWithSeq pre.toList s.toList

/-- `sanitizeCommand(command, serverName)` from `mcpClient.ts`:
trim, length bounds, control characters, `..` segments, and the
separator/absolute-or-explicit-relative rule; returns the trimmed command. -/
def sanitizeCommand (command serverName : String) : Except MCPError String :=
  let trimmed := jsTrim command
  if trimmed.length = 0 ∨ trimmed.length > MAX_COMMAND_LENGTH then
    .error (.connectionError
      ("Server \"" ++ serverName ++ "\" command must be between 1 and 256 characters"))
  else if hasControlChar trimmed then
    .error (.connectionError
      ("Server \"" ++ serverName ++ "\" command contains invalid control characters"))
  else if ((splitStr trimmed isPathSep).filter (fun seg => seg ≠ "")).any
      (fun seg => seg == "..") then
    .error (.connectionError
      ("Server \"" ++ serverName ++ "\" command must not include parent directory segments"))
  else
    let hasSep := trimmed.toList.any isPathSep
    let isExplicitRelative := strStartsWith trimmed "./" || strStartsWith trimmed ".\\"
    if hasSep ∧ ¬ posixIsAbsolute trimmed ∧ ¬ isExplicitRelative then
      .error (.connectionError
        ("Server \"" ++ serverName ++ "\" command path must be absolute or start with \"./\""))
    else
      .ok trimmed

/-- `sanitizeArgs`' `args.map((arg, index) => ...)` body, carrying the
running index; the first offending argument throws. -/
def sanitizeArgsFrom (serverName : String) : Nat → List String → Except MCPError (List String)
  | _, [] => .ok []
  | i, a :: rest =>
    if hasControlChar a then
      .error (.connectionError
        ("Argument " ++ toString i ++ " for server \"" ++ serverName ++
          "\" contains control characters"))
    else if a.length > MAX_ARG_LENGTH then
      .error (.connectionError
        ("Argument " ++ toString i ++ " for server \"" ++ serverName ++
          "\" exceeds 2048 characters"))
    else
      (sanitizeArgsFrom serverName (i + 1) rest).map (fun as => a :: as)

/-- `sanitizeArgs(args, serverName)` from `mcpClient.ts`. -/
def sanitizeArgs (args : List String) (serverName : String) : Except MCPError (List String) :=
  sanitizeArgsFrom serverName 0 args

/-- POSIX `path.join(directory, file)` for the normalized inputs that occur
in candidate construction. -/
def pathJoin (dir file : String) : String :=
  if dir = "" then file
  else if dir.toList.getLast? = some '/' then dir ++ file
  else dir ++ "/" ++ file

/-- The ambient process environment and filesystem seen by the resolver:
`process.env.PATH`, `process.cwd()`, and the `fs.access(candidate, X_OK)`
oracle (`true` means access succeeded). -/
structure SysEnv where
  pathEnv : Option String
  cwd : String
  fileOk : String → Bool

/-- `buildExecutableCandidates(directory, command, extensions)` from
`mcpClient.ts`. -/
def buildExecutableCandidates (directory command : String) (extensions : List String) :
    List String :=
  if extensions.length = 0 then [pathJoin directory command]
  else extensions.map (fun ext =>
    if ext = "" then pathJoin directory command
    else pathJoin directory (command ++ ext))

/-- The resolver's nested `for` loops: first directory (in order) holding an
accessible candidate wins; `none` when the search is exhausted. -/
def findExecutable (dirs : List String) (command : String) (extensions : List String)
    (fileOk : String → Bool) : Option String :=
  match dirs with
  | [] => none
  | d :: rest =>
    match (buildExecutableCandidates d command extensions).find? fileOk with
    | some c => some c
    | none => findExecutable rest command extensions fileOk

/-- `getExecutableExtensions(command)` on a non-Windows platform
(`process.platform !== "win32"` returns `[""]` immediately). -/
def getExecutableExtensions (_command : String) : List String := [""]

/-- `Executable "${command}" for server "${serverName}" was not found in PATH`. -/
def notFoundInPathMsg (command serverName : String) : String :=
  "Executable \"" ++ command ++ "\" for server \"" ++ serverName ++
    "\" was not found in PATH"

/-- `ensureExecutableAvailable(command, serverName)` from `mcpClient.ts`,
POSIX platform. `process.env.PATH` being absent or empty is falsy in JS,
hence both hit the `PATH is not defined` branch. -/
def ensureExecutableAvailable (command serverName : String) (env : SysEnv) :
    Except MCPError Unit :=
  if command.toList.any isPathSep then
    let candidate :=
      if posixIsAbsolute command then command else pathJoin env.cwd command
    if env.fileOk candidate then .ok ()
    else .error (.connectionError
      ("Executable \"" ++ command ++ "\" for server \"" ++ serverName ++
        "\" not found or not executable"))
  else
    match env.pathEnv with
    | none =>
      .error (.connectionError
        ("Unable to resolve command \"" ++ command ++ "\" for server \"" ++
          serverName ++ "\" because PATH is not defined"))
    | some pathEnv =>
      if pathEnv = "" then
        .error (.connectionError
          ("Unable to resolve command \"" ++ command ++ "\" for server \"" ++
            serverName ++ "\" because PATH is not defined"))
      else
        let directories := (splitStr pathEnv (fun c => c == ':')).filter (fun d => d ≠ "")
        match findExecutable directories command (getExecutableExtensions command)
            env.fileOk with
        | some _ => .ok ()
        | none => .error (.connectionError (notFoundInPathMsg command serverName))

/-- A STDIO server configuration (`StdioServerConfig`): command, argument
list, optional env overlay (list of key/value pairs). -/
structure StdioConfig where
  command : String
  args : List String
  envPairs : List (String × String)
deriving DecidableEq, Repr

/-- Error messages of the façade, built exactly as the template literals in
`mcpClient.ts` build them. -/
def alreadyConnectedMsg (serverName : String) : String :=
  "MCP client for \"" ++ serverName ++ "\" is already connected"

/-- `Maximum concurrent MCP connections (${MAX_CONCURRENT_CLIENTS}) reached`. -/
def budgetMsg : String :=
  "Maximum concurrent MCP connections (" ++ toString MAX_CONCURRENT_CLIENTS ++ ") reached"

/-- `Timed out after ${CONNECT_TIMEOUT_MS}ms connecting to "${serverName}"`. -/
def timeoutMsg (serverName : String) : String :=
  "Timed out after " ++ toString CONNECT_TIMEOUT_MS ++ "ms connecting to \"" ++
    serverName ++ "\""

/-- `Failed to connect to MCP server "${serverName}": ${error.message}`. -/
def failedConnectMsg (serverName m : String) : String :=
  "Failed to connect to MCP server \"" ++ serverName ++ "\": " ++ m

/-- Per-façade mutable fields of `MCPClient`: `isConnected`, whether
`this.transport` holds an open transport, whether `this.connectionTimer`
holds a pending timer, and membership in the process-wide
`clientRegistry`. -/
structure FacadeState where
  isConnected : Bool
  transportOpen : Bool
  timerPending : Bool
  registered : Bool
deriving DecidableEq, Repr

/-- Process-wide mutable state: `MCPClient.activeClients`. -/
structure GlobalState where
  active : Int
deriving DecidableEq, Repr

/-- Resolution of the `Promise.race([connectPromise, timeoutPromise])`:
the handshake resolves first, the 30 s timer fires first, or the handshake
rejects with a foreign error message. -/
inductive HandshakeOutcome where
  | success
  | timeout
  | failed (msg : String)
deriving DecidableEq, Repr

/-- Observable side effects of one `connect` call: whether
`ensureExecutableAvailable` (the resolver's filesystem check) ran, and
whether a `StdioClientTransport` was constructed (the child process
spawned). -/
structure CallTrace where
  resolverInvoked : Bool
  spawned : Bool
deriving DecidableEq, Repr

/-- `handleDisconnect()`: decrement `activeClients` only if this façade is
connected and the counter is positive; clear `isConnected`; remove the
façade from the registry. -/
def handleDisconnect (st : FacadeState) (g : GlobalState) : FacadeState × GlobalState :=
  let g2 := if st.isConnected = true ∧ 0 < g.active then
      { active := g.active - 1 } else g
  ({ st with isConnected := false, registered := false }, g2)

/-- `close()`: clear any pending timer; close the transport if present
(`failClose` is the oracle for `await this.transport.close()` throwing);
the `finally` block always runs `handleDisconnect` and drops the transport
handle; a transport-close failure is rethrown after the `finally`. -/
def closeFacade (failClose : Bool) (st : FacadeState) (g : GlobalState) :
    Except MCPError Unit × FacadeState × GlobalState :=
  let st1 := { st with timerPending := false }
  let res : Except MCPError Unit :=
    if st1.transportOpen = true ∧ failClose = true then
      .error (.otherError "transport close failed")
    else .ok ()
  let (st2, g2) := handleDisconnect st1 g
  (res, { st2 with transportOpen := false }, g2)

/-- `connectStdio(config)`: sanitize command and arguments, run the
resolver, check the admission budget, build the transport (spawning the
child process), then race the handshake against the 30 000 ms timer.
On success `isConnected` is set and `activeClients` incremented (the
best-effort `setPriority` call has no modelled effect); on timeout the
timer callback force-closes the transport (whose `onclose` handler runs
`handleDisconnect`) and rejects; the `finally` block clears the timer on
every path. The `${NAME}` env-overlay expansion has no bearing on any
modelled observable and is not tracked. -/
def connectStdio (cfg : StdioConfig) (serverName : String) (env : SysEnv)
    (outcome : HandshakeOutcome) (st : FacadeState) (g : GlobalState) :
    Except MCPError Unit × FacadeState × GlobalState × CallTrace :=
  match sanitizeCommand cfg.command serverName with
  | .error e => (.error e, st, g, ⟨false, false⟩)
  | .ok sanitizedCommand =>
    match sanitizeArgs cfg.args serverName with
    | .error e => (.error e, st, g, ⟨false, false⟩)
    | .ok _ =>
      match ensureExecutableAvailable sanitizedCommand serverName env with
      | .error e => (.error e, st, g, ⟨true, false⟩)
      | .ok _ =>
        if MAX_CONCURRENT_CLIENTS ≤ g.active then
          (.error (.connectionError budgetMsg), st, g, ⟨true, false⟩)
        else
          let st1 := { st with transportOpen := true, timerPending := true }
          match outcome with
          | .success =>
            (.ok (),
             { st1 with isConnected := true, timerPending := false },
             { active := g.active + 1 }, ⟨true, true⟩)
          | .timeout =>
            let stT := { st1 with transportOpen := false, timerPending := false }
            let (st2, g2) := handleDisconnect stT g
            (.error (.connectionError (timeoutMsg serverName)), st2, g2, ⟨true, true⟩)
          | .failed m =>
            (.error (.otherError m), { st1 with timerPending := false }, g, ⟨true, true⟩)

/-- `connect(config)`: reject when already connected; otherwise run
`connectStdio`. Every caught error triggers `await this.close().catch(...)`
(failures of that unwind close are swallowed) and is then rethrown —
unchanged when it is a `ConnectionError`, wrapped in
`Failed to connect ...` otherwise. -/
def connectFacade (cfg : StdioConfig) (serverName : String) (env : SysEnv)
    (outcome : HandshakeOutcome) (failClose : Bool)
    (st : FacadeState) (g : GlobalState) :
    Except MCPError Unit × FacadeState × GlobalState × CallTrace :=
  if st.isConnected = true then
    let r := closeFacade failClose st g
    (.error (.connectionError (alreadyConnectedMsg serverName)), r.2.1, r.2.2,
      ⟨false, false⟩)
  else
    match connectStdio cfg serverName env outcome st g with
    | (.ok _, st1, g1, tr) => (.ok (), st1, g1, tr)
    | (.error e, st1, g1, tr) =>
      let r := closeFacade failClose st1 g1
      let e2 := match e with
        | .connectionError m => MCPError.connectionError m
        | .configError m =>
          MCPError.connectionError (failedConnectMsg serverName m)
        | .otherError m =>
          MCPError.connectionError (failedConnectMsg serverName m)
      (.error e2, r.2.1, r.2.2, tr)

/-- `response.content` of a tool call, as the JavaScript value space seen by
`callTool`: JSON values plus `undefined`. -/
inductive JsonValue where
  | nullV
  | undef
  | boolV (b : Bool)
  | numV (n : Int)
  | strV (s : String)
  | arrV (xs : List JsonValue)
  | objV (fields : List (String × JsonValue))

/-- The empty object literal `{}`. -/
def emptyObj : JsonValue := .objV []

/-- The result construction inside `callTool`:
`Array.isArray(content) ? content[0] : content` followed by `content ?? {}`
(nullish coalescing: `null` and `undefined` become `{}`; `[0]` on an empty
array is `undefined`). -/
def callToolContent (content : JsonValue) : JsonValue :=
  let c := match content with
    | .arrV xs => xs.headD .undef
    | v => v
  match c with
  | .nullV => emptyObj
  | .undef => emptyObj
  | v => v

/-- Characters admitted by `SERVER_NAME_PATTERN = /^[a-zA-Z0-9._-]+$/`. -/
def isServerNameChar (c : Char) : Bool :=
  c.isAlpha || c.isDigit || c == '.' || c == '_' || c == '-'

/-- The server-name key schema of `MCPConfigSchema`
(`z.string().trim().min(1).regex(SERVER_NAME_PATTERN)`): zod's `.trim()`
transforms first, then the emptiness and pattern checks run on the trimmed
key. -/
def validServerName (raw : String) : Bool :=
  let t := jsTrim raw
  decide (1 ≤ t.length) && t.toList.all isServerNameChar

/-- The `command` field schema of `StdioServerSchema` in `parser.ts`
(`trim`, length 1..256, no control characters, no `..` segment,
separator implies absolute or explicit relative). -/
def validStdioCommand (raw : String) : Bool :=
  let t := jsTrim raw
  decide (1 ≤ t.length) && decide (t.length ≤ MAX_COMMAND_LENGTH) &&
  !hasControlChar t &&
  !(((splitStr t isPathSep).filter (fun seg => seg ≠ "")).any (fun seg => seg == "..")) &&
  (!(t.toList.any isPathSep) ||
    (posixIsAbsolute t || strStartsWith t "./" || strStartsWith t ".\\"))

/-- The `args` field schema of `StdioServerSchema`: every element at most
2048 characters and free of control characters, and at most
`MAX_ARGS = 64` elements. -/
def validStdioArgs (args : List String) : Bool :=
  args.all (fun a => decide (a.length ≤ MAX_ARG_LENGTH) && !hasControlChar a) &&
  decide (args.length ≤ 64)

/-- Acceptance of one STDIO server entry by `StdioServerSchema`. -/
def stdioConfigAccepted (cfg : StdioConfig) : Bool :=
  validStdioCommand cfg.command && validStdioArgs cfg.args

/-- Acceptance of a whole `mcpServers` record by `MCPConfigSchema`
(`validateConfig` succeeds iff every key and every value validates). -/
def configAccepted (entries : List (String × StdioConfig)) : Bool :=
  entries.all (fun e => validServerName e.1 && stdioConfigAccepted e.2)

/-- The issue strings contributed by the server-name KEY schema for one
`mcpServers` key, formatted as `validateConfig` formats them
(`issue.path.join(".") + ": " + issue.message`; a record-key issue's path
is `mcpServers` followed by the offending key). zod evaluates every string
check, so an empty trimmed key yields both the `min(1)` issue and the
pattern issue; a non-empty trimmed key failing the pattern yields the
pattern issue alone. -/
def serverNameIssues (name : String) : List String :=
  let t := jsTrim name
  (if 1 ≤ t.length then []
   else ["mcpServers." ++ name ++ ": Server name must not be empty"]) ++
  (if 1 ≤ t.length ∧ t.toList.all isServerNameChar = true then []
   else ["mcpServers." ++ name ++
     ": Server names may only contain letters, numbers, \".\", \"-\", and \"_\""])

/-- `messages.join("; ")` in `validateConfig`. -/
def joinIssues : List String → String
  | [] => ""
  | [s] => s
  | s :: rest => s ++ "; " ++ joinIssues rest

/-- `Invalid MCP configuration: ${messages}` — the `ConfigError` message of
`ConfigParser.validateConfig`. -/
def invalidConfigMsg (issues : List String) : String :=
  "Invalid MCP configuration: " ++ joinIssues issues

/-- `ConfigParser.validateConfig` restricted to the server-name dimension:
for a record whose values satisfy the STDIO value schema, zod's issues are
exactly the key-schema issues in entry order, and `validateConfig` throws
them as one `ConfigError`; with none, parsing succeeds. (The source's
duplicate-message filter never fires here: JSON object keys are unique and
one key's two possible issue texts differ.) -/
def validateConfigNames (entries : List (String × StdioConfig)) : Except MCPError Unit :=
  match (entries.map (fun e => serverNameIssues e.1)).flatten with
  | [] => .ok ()
  | issues => .error (.configError (invalidConfigMsg issues))

/-- Process-wide admission state over many façades, identified by `Nat`
ids: `activeClients`, the set of façades whose `isConnected` is true, and
the `clientRegistry`. -/
structure AdmState where
  active : Int
  connected : Finset Nat
  registry : Finset Nat

/-- Fresh process: counter zero, nothing connected or registered. -/
def initAdm : AdmState := ⟨0, ∅, ∅⟩

/-- Effect of `close()` / an unsolicited transport close on the admission
state (`handleDisconnect` plus registry removal): decrement only when the
façade was connected and the counter positive. -/
def disconnectEffect (c : Nat) (s : AdmState) : AdmState :=
  { active := if c ∈ s.connected ∧ 0 < s.active then s.active - 1 else s.active,
    connected := s.connected.erase c,
    registry := s.registry.erase c }

/-- One full `connect()` call by façade `c`, run to completion:
already-connected, validation/resolution failure (`valid = false`) and
budget exhaustion all fail — and the `catch` block's `this.close()` applies
`disconnectEffect` — while a successful handshake sets the connected flag
and increments the counter. -/
def stepConnect (c : Nat) (valid handshakeOk : Bool) (s : AdmState) : AdmState :=
  if c ∈ s.connected then disconnectEffect c s
  else if valid = false then disconnectEffect c s
  else if MAX_CONCURRENT_CLIENTS ≤ s.active then disconnectEffect c s
  else if handshakeOk = true then
    { active := s.active + 1, connected := insert c s.connected, registry := s.registry }
  else disconnectEffect c s

/-- The operations that touch the admission counter: façade construction
(registry insertion), a complete `connect()` call, `close()`, an
unsolicited transport close, and the shutdown handler draining the
registry. -/
inductive AdmOp where
  | construct (c : Nat)
  | connectOp (c : Nat) (valid handshakeOk : Bool)
  | closeOp (c : Nat)
  | transportClose (c : Nat)
  | shutdown

/-- Interpretation of one operation on the admission state. -/
def stepAdm (s : AdmState) (op : AdmOp) : AdmState :=
  match op with
  | .construct c => { s with registry := insert c s.registry }
  | .connectOp c v h => stepConnect c v h s
  | .closeOp c => disconnectEffect c s
  | .transportClose c => disconnectEffect c s
  | .shutdown => (s.registry.sort (· ≤ ·)).foldl (fun t c => disconnectEffect c t) s

/-- Run a sequence of operations from process start. -/
def runAdm (ops : List AdmOp) : AdmState := ops.foldl stepAdm initAdm

/-- The inductive invariant of the admission machine: the counter equals the
number of connected façades, which never exceeds the budget. -/
def AdmInv (s : AdmState) : Prop :=
  s.active = (s.connected.card : Int) ∧ s.connected.card ≤ 8

theorem disconnect_inv (c : Nat) (s : AdmState) (h : AdmInv s) :
    AdmInv (disconnectEffect c s) := by
  obtain ⟨h1, h2⟩ := h
  unfold AdmInv disconnectEffect
  by_cases hc : c ∈ s.connected
  · have hcard : 1 ≤ s.connected.card := Finset.card_pos.mpr ⟨c, hc⟩
    have he : (s.connected.erase c).card = s.connected.card - 1 :=
      Finset.card_erase_of_mem hc
    have hpos : 0 < s.active := by omega
    rw [if_pos ⟨hc, hpos⟩]
    constructor <;> simp only [he] <;> omega
  · have he : s.connected.erase c = s.connected := Finset.erase_eq_of_not_mem hc
    have : ¬ (c ∈ s.connected ∧ 0 < s.active) := fun hh => hc hh.1
    rw [if_neg this, he]
    exact ⟨h1, h2⟩

theorem stepConnect_inv (c : Nat) (v hk : Bool) (s : AdmState) (hi : AdmInv s) :
    AdmInv (stepConnect c v hk s) := by
  unfold stepConnect
  split
  · exact disconnect_inv _ _ hi
  · split
    · exact disconnect_inv _ _ hi
    · split
      · exact disconnect_inv _ _ hi
      · split
        · rename_i hc _ hb _
          obtain ⟨h1, h2⟩ := hi
          unfold MAX_CONCURRENT_CLIENTS at hb
          have hcard : (insert c s.connected).card = s.connected.card + 1 :=
            Finset.card_insert_of_not_mem hc
          constructor <;> simp only [AdmInv, hcard] <;> omega
        · exact disconnect_inv _ _ hi

theorem foldDisconnect_inv (l : List Nat) (s : AdmState) (hi : AdmInv s) :
    AdmInv (l.foldl (fun t c => disconnectEffect c t) s) := by
  induction l generalizing s with
  | nil => exact hi
  | cons a l ih => exact ih _ (disconnect_inv _ _ hi)

theorem stepAdm_inv (s : AdmState) (op : AdmOp) (hi : AdmInv s) :
    AdmInv (stepAdm s op) := by
  cases op with
  | construct c => exact hi
  | connectOp c v h => exact stepConnect_inv c v h s hi
  | closeOp c => exact disconnect_inv c s hi
  | transportClose c => exact disconnect_inv c s hi
  | shutdown => exact foldDisconnect_inv _ s hi

theorem foldAdm_inv (ops : List AdmOp) (s : AdmState) (hi : AdmInv s) :
    AdmInv (ops.foldl stepAdm s) := by
  induction ops generalizing s with
  | nil => exact hi
  | cons op ops ih => exact ih _ (stepAdm_inv s op hi)

/-- Claim C1: after any sequence of construct/connect/close/transport-close/
shutdown operations starting from process start, `activeClients` satisfies
`0 ≤ counter ≤ MAX_CONCURRENT (8)`; moreover the counter always equals the
number of currently connected façades — it is incremented only by a
successful handshake and decremented exactly once per successful increment
(by `close`, an unsolicited transport close, or shutdown), never dropping
below zero. -/
theorem admissionCounter_invariant (ops : List AdmOp) :
    0 ≤ (runAdm ops).active ∧ (runAdm ops).active ≤ MAX_CONCURRENT_CLIENTS ∧
    (runAdm ops).active = ((runAdm ops).connected.card : Int) := by
  have h : AdmInv (runAdm ops) := by
    unfold runAdm
    refine foldAdm_inv ops initAdm ⟨?_, ?_⟩ <;> simp [initAdm]
  obtain ⟨h1, h2⟩ := h
  unfold MAX_CONCURRENT_CLIENTS
  refine ⟨?_, ?_, h1⟩ <;> omega

/-- A system environment in which every file-access check succeeds and the
search path is `/bin`. -/
def envAllOk : SysEnv := { pathEnv := some "/bin", cwd := "/", fileOk := fun _ => true }

/-- A freshly constructed, never-connected façade: registered, no open
transport, no pending timer. -/
def freshFacade : FacadeState := ⟨false, false, false, true⟩

theorem connectStdio_budget (cfg : StdioConfig) (serverName : String) (env : SysEnv)
    (o : HandshakeOutcome) (st : FacadeState) (g : GlobalState)
    (c : String) (as : List String)
    (hc : sanitizeCommand cfg.command serverName = .ok c)
    (ha : sanitizeArgs cfg.args serverName = .ok as)
    (hr : ensureExecutableAvailable c serverName env = .ok ())
    (hg : MAX_CONCURRENT_CLIENTS ≤ g.active) :
    connectStdio cfg serverName env o st g =
      (.error (.connectionError budgetMsg), st, g, ⟨true, false⟩) := by
  unfold connectStdio
  simp [hc, ha, hr, hg]

/-- Claim C2 (amended): a connect attempt on a disconnected façade that
passes validation and resolution while `activeClients` already equals the
maximum (8) fails with the budget-exhausted `ConnectionError`, whose
message states the configured maximum, and leaves the counter unchanged
(the message, however, does not include the server label — see the
counterexample theorem). -/
theorem connect_budget_exhausted (cfg : StdioConfig) (serverName : String) (env : SysEnv)
    (o : HandshakeOutcome) (fc : Bool) (st : FacadeState) (g : GlobalState)
    (c : String) (as : List String)
    (hst : st.isConnected = false)
    (hc : sanitizeCommand cfg.command serverName = .ok c)
    (ha : sanitizeArgs cfg.args serverName = .ok as)
    (hr : ensureExecutableAvailable c serverName env = .ok ())
    (hg : g.active = MAX_CONCURRENT_CLIENTS) :
    (connectFacade cfg serverName env o fc st g).1 =
        .error (.connectionError budgetMsg) ∧
      strMentions "8" budgetMsg ∧
      (connectFacade cfg serverName env o fc st g).2.2.1 = g := by
  have hb := connectStdio_budget cfg serverName env o st g c as hc ha hr (le_of_eq hg.symm)
  refine ⟨?_, by decide, ?_⟩ <;>
    simp [connectFacade, hst, hb, closeFacade, handleDisconnect]

/-- Claim C2 counterexample: with the admission budget exhausted, the
budget error is raised as claimed, but its message (built without the
server label in `connectStdio`) does not include the label `srv1`. -/
theorem budget_error_lacks_label :
    (connectFacade ⟨"node", [], []⟩ "srv1" envAllOk .success false freshFacade ⟨8⟩).1 =
      .error (.connectionError budgetMsg) ∧
    ¬ strMentions "srv1" budgetMsg := ⟨rfl, by decide⟩

/-- Witness for `connect_budget_exhausted` at a concrete configuration. -/
theorem connect_budget_exhausted_witness :
    freshFacade.isConnected = false ∧
    sanitizeCommand "node" "srv1" = .ok "node" ∧
    sanitizeArgs [] "srv1" = .ok [] ∧
    ensureExecutableAvailable "node" "srv1" envAllOk = .ok () ∧
    (GlobalState.mk 8).active = MAX_CONCURRENT_CLIENTS ∧
    ((connectFacade ⟨"node", [], []⟩ "srv1" envAllOk .success false freshFacade ⟨8⟩).1 =
        .error (.connectionError budgetMsg) ∧
      strMentions "8" budgetMsg ∧
      (connectFacade ⟨"node", [], []⟩ "srv1" envAllOk .success false freshFacade ⟨8⟩).2.2.1 = ⟨8⟩) :=
  ⟨rfl, by decide, by decide, rfl, rfl,
    connect_budget_exhausted ⟨"node", [], []⟩ "srv1" envAllOk .success false freshFacade ⟨8⟩
      "node" [] rfl (by decide) (by decide) rfl rfl⟩

theorem mentions_duration (serverName : String) :
    strMentions (toString CONNECT_TIMEOUT_MS) (timeoutMsg serverName) := by
  unfold strMentions timeoutMsg
  refine ⟨"Timed out after ".toList,
    "ms connecting to \"".toList ++ serverName.toList ++ "\"".toList, ?_⟩
  show (("Timed out after " ++ (toString CONNECT_TIMEOUT_MS ++
    ("ms connecting to \"" ++ (serverName ++ "\""))))).toList = _
  simp [List.append_assoc]

theorem connectStdio_timer_shape (cfg : StdioConfig) (serverName : String) (env : SysEnv)
    (o : HandshakeOutcome) (st : FacadeState) (g : GlobalState) :
    (connectStdio cfg serverName env o st g).2.1.timerPending = false ∨
    (∃ e, (connectStdio cfg serverName env o st g).1 = .error e) := by
  unfold connectStdio
  split
  · exact .inr ⟨_, rfl⟩
  split
  · exact .inr ⟨_, rfl⟩
  split
  · exact .inr ⟨_, rfl⟩
  split
  · exact .inr ⟨_, rfl⟩
  cases o
  · exact .inl rfl
  · exact .inr ⟨_, rfl⟩
  · exact .inr ⟨_, rfl⟩

theorem timer_cleared (cfg : StdioConfig) (serverName : String) (env : SysEnv)
    (o : HandshakeOutcome) (fc : Bool) (st : FacadeState) (g : GlobalState) :
    (connectFacade cfg serverName env o fc st g).2.1.timerPending = false := by
  unfold connectFacade
  split
  · simp [closeFacade, handleDisconnect]
  · rcases hsh : connectStdio cfg serverName env o st g with ⟨res, st1, g1, tr⟩
    rcases connectStdio_timer_shape cfg serverName env o st g with ht | ⟨e, he⟩
    · rw [hsh] at ht
      cases res with
      | ok u => cases u; simp only [hsh]; exact ht
      | error e2 => simp only [hsh]; simp [closeFacade, handleDisconnect]
    · simp only [hsh] at he
      cases res with
      | ok u => simp at he
      | error e2 => simp only [hsh]; simp [closeFacade, handleDisconnect]

theorem connectStdio_timeout (cfg : StdioConfig) (serverName : String) (env : SysEnv)
    (st : FacadeState) (g : GlobalState) (c : String) (as : List String)
    (hst : st.isConnected = false)
    (hc : sanitizeCommand cfg.command serverName = .ok c)
    (ha : sanitizeArgs cfg.args serverName = .ok as)
    (hr : ensureExecutableAvailable c serverName env = .ok ())
    (hg : g.active < MAX_CONCURRENT_CLIENTS) :
    connectStdio cfg serverName env .timeout st g =
      (.error (.connectionError (timeoutMsg serverName)),
       ⟨false, false, false, false⟩, g, ⟨true, true⟩) := by
  unfold connectStdio
  simp [hc, ha, hr, hst, handleDisconnect, (not_le.mpr hg : ¬ _)]

/-- Claim C3: a connect attempt (disconnected façade, valid command and
arguments, available executable, budget not exhausted) whose handshake race
is won by the 30 000 ms timer fails with the timeout `ConnectionError`
stating the configured duration, the transport is force-closed (no open
transport survives the call), `activeClients` is not incremented; and on
every exit path — success, timeout or any other failure — no pending timer
outlives the call. -/
theorem connect_timeout_raced (cfg : StdioConfig) (serverName : String) (env : SysEnv)
    (fc : Bool) (st : FacadeState) (g : GlobalState) (c : String) (as : List String)
    (hst : st.isConnected = false)
    (hc : sanitizeCommand cfg.command serverName = .ok c)
    (ha : sanitizeArgs cfg.args serverName = .ok as)
    (hr : ensureExecutableAvailable c serverName env = .ok ())
    (hg : g.active < MAX_CONCURRENT_CLIENTS) :
    connectFacade cfg serverName env .timeout fc st g =
      (.error (.connectionError (timeoutMsg serverName)),
       ⟨false, false, false, false⟩, g, ⟨true, true⟩) ∧
    strMentions (toString CONNECT_TIMEOUT_MS) (timeoutMsg serverName) ∧
    (∀ (o : HandshakeOutcome) (fc2 : Bool),
      (connectFacade cfg serverName env o fc2 st g).2.1.timerPending = false) := by
  have hts := connectStdio_timeout cfg serverName env st g c as hst hc ha hr hg
  refine ⟨?_, mentions_duration serverName,
    fun o fc2 => timer_cleared cfg serverName env o fc2 st g⟩
  unfold connectFacade
  simp [hst, hts, closeFacade, handleDisconnect]

/-- Witness for `connect_timeout_raced` at a concrete configuration. -/
theorem connect_timeout_raced_witness :
    freshFacade.isConnected = false ∧
    sanitizeCommand "node" "srv" = .ok "node" ∧
    sanitizeArgs [] "srv" = .ok [] ∧
    ensureExecutableAvailable "node" "srv" envAllOk = .ok () ∧
    (GlobalState.mk 0).active < MAX_CONCURRENT_CLIENTS ∧
    connectFacade ⟨"node", [], []⟩ "srv" envAllOk .timeout false freshFacade ⟨0⟩ =
      (.error (.connectionError (timeoutMsg "srv")),
       ⟨false, false, false, false⟩, ⟨0⟩, ⟨true, true⟩) ∧
    strMentions (toString CONNECT_TIMEOUT_MS) (timeoutMsg "srv") ∧
    (connectFacade ⟨"node", [], []⟩ "srv" envAllOk .success true freshFacade ⟨0⟩).2.1.timerPending
      = false :=
  ⟨rfl, by decide, by decide, rfl, by decide,
    (connect_timeout_raced ⟨"node", [], []⟩ "srv" envAllOk false freshFacade ⟨0⟩ "node" []
      rfl (by decide) (by decide) rfl (by decide)).1,
    (connect_timeout_raced ⟨"node", [], []⟩ "srv" envAllOk false freshFacade ⟨0⟩ "node" []
      rfl (by decide) (by decide) rfl (by decide)).2.1,
    (connect_timeout_raced ⟨"node", [], []⟩ "srv" envAllOk false freshFacade ⟨0⟩ "node" []
      rfl (by decide) (by decide) rfl (by decide)).2.2 .success true⟩

/-- Claim C4 (code bug): calling `connect` on an already-connected façade
does fail with the already-connected `ConnectionError`; but because the
`catch` block in `connect` runs `await this.close()` unconditionally, the
existing live connection does NOT remain connected: the transport is
closed, the façade is unregistered from the registry.
`activeClients` is decremented (here from 1 to 0) — contradicting the
claim and the spec state machine. -/
theorem reentrant_connect_teardown :
    connectFacade ⟨"node", [], []⟩ "srv" envAllOk .success false
        ⟨true, true, false, true⟩ ⟨1⟩ =
      (.error (.connectionError (alreadyConnectedMsg "srv")),
        ⟨false, false, false, false⟩, ⟨0⟩, ⟨false, false⟩) := rfl

/-- Claim C5: calling `close()` twice in succession on a successfully
connected façade (connected, open transport, timer possibly pending,
counter `n > 0`): the first call succeeds whenever the transport closes
cleanly, the second call always succeeds, the counter is decremented
exactly once in total, the pending timer is cancelled, and the façade is
unregistered unconditionally — even when closing the transport itself
failed. -/
theorem close_idempotent (tp fc1 fc2 : Bool) (n : Int) (hn : 0 < n) :
    (fc1 = false → (closeFacade fc1 ⟨true, true, tp, true⟩ ⟨n⟩).1 = .ok ()) ∧
    (closeFacade fc2 (closeFacade fc1 ⟨true, true, tp, true⟩ ⟨n⟩).2.1
        (closeFacade fc1 ⟨true, true, tp, true⟩ ⟨n⟩).2.2).1 = .ok () ∧
    (closeFacade fc1 ⟨true, true, tp, true⟩ ⟨n⟩).2.2.active = n - 1 ∧
    (closeFacade fc2 (closeFacade fc1 ⟨true, true, tp, true⟩ ⟨n⟩).2.1
        (closeFacade fc1 ⟨true, true, tp, true⟩ ⟨n⟩).2.2).2.2.active = n - 1 ∧
    (closeFacade fc1 ⟨true, true, tp, true⟩ ⟨n⟩).2.1.timerPending = false ∧
    (closeFacade fc1 ⟨true, true, tp, true⟩ ⟨n⟩).2.1.registered = false ∧
    (closeFacade fc2 (closeFacade fc1 ⟨true, true, tp, true⟩ ⟨n⟩).2.1
        (closeFacade fc1 ⟨true, true, tp, true⟩ ⟨n⟩).2.2).2.1.registered = false := by
  cases fc1 <;> simp [closeFacade, handleDisconnect, hn]

/-- Witness for `close_idempotent`: a pending timer, a transport whose
close fails, counter 1. -/
theorem close_idempotent_witness :
    (0 : Int) < 1 ∧
    ((true = false → (closeFacade true ⟨true, true, true, true⟩ ⟨1⟩).1 = .ok ()) ∧
     (closeFacade false (closeFacade true ⟨true, true, true, true⟩ ⟨1⟩).2.1
        (closeFacade true ⟨true, true, true, true⟩ ⟨1⟩).2.2).1 = .ok () ∧
     (closeFacade true ⟨true, true, true, true⟩ ⟨1⟩).2.2.active = 1 - 1 ∧
     (closeFacade false (closeFacade true ⟨true, true, true, true⟩ ⟨1⟩).2.1
        (closeFacade true ⟨true, true, true, true⟩ ⟨1⟩).2.2).2.2.active = 1 - 1 ∧
     (closeFacade true ⟨true, true, true, true⟩ ⟨1⟩).2.1.timerPending = false ∧
     (closeFacade true ⟨true, true, true, true⟩ ⟨1⟩).2.1.registered = false ∧
     (closeFacade false (closeFacade true ⟨true, true, true, true⟩ ⟨1⟩).2.1
        (closeFacade true ⟨true, true, true, true⟩ ⟨1⟩).2.2).2.1.registered = false) :=
  ⟨by decide, close_idempotent true true false 1 (by decide)⟩

theorem sanitizeCommand_error_shape (command serverName : String) (e : MCPError)
    (h : sanitizeCommand command serverName = .error e) :
    ∃ m, e = .connectionError m := by
  simp only [sanitizeCommand] at h
  split at h
  · injection h with h2; exact ⟨_, h2.symm⟩
  split at h
  · injection h with h2; exact ⟨_, h2.symm⟩
  split at h
  · injection h with h2; exact ⟨_, h2.symm⟩
  split at h
  · injection h with h2; exact ⟨_, h2.symm⟩
  · simp at h

theorem sanitizeCommand_ctrl (command serverName : String)
    (h : hasControlChar (jsTrim command) = true) :
    ∃ m, sanitizeCommand command serverName = .error (.connectionError m) := by
  simp only [sanitizeCommand]
  by_cases h0 : (jsTrim command).length = 0 ∨ (jsTrim command).length > MAX_COMMAND_LENGTH
  · simp [h0]
  · simp [h0, h]

theorem sanitizeArgsFrom_ctrl (serverName : String) (args : List String) (i : Nat)
    (h : ∃ a ∈ args, hasControlChar a = true) :
    ∃ m, sanitizeArgsFrom serverName i args = .error (.connectionError m) := by
  induction args generalizing i with
  | nil => simp at h
  | cons a rest ih =>
    by_cases hA : hasControlChar a = true
    · refine ⟨"Argument " ++ toString i ++ " for server \"" ++ serverName ++
        "\" contains control characters", ?_⟩
      simp [sanitizeArgsFrom, hA]
    · obtain ⟨b, hb, hbc⟩ := h
      rcases List.mem_cons.mp hb with rfl | hb
      · exact absurd hbc hA
      · obtain ⟨m, hm⟩ := ih (i + 1) ⟨b, hb, hbc⟩
        by_cases hL : a.length > MAX_ARG_LENGTH
        · refine ⟨"Argument " ++ toString i ++ " for server \"" ++ serverName ++
            "\" exceeds 2048 characters", ?_⟩
          simp [sanitizeArgsFrom, hA, hL]
        · exact ⟨m, by simp [sanitizeArgsFrom, hA, hL, hm, Except.map]⟩

theorem connectStdio_invalid (cfg : StdioConfig) (serverName : String) (env : SysEnv)
    (o : HandshakeOutcome) (st : FacadeState) (g : GlobalState)
    (h : hasControlChar (jsTrim cfg.command) = true ∨
      ∃ a ∈ cfg.args, hasControlChar a = true) :
    ∃ m, connectStdio cfg serverName env o st g =
      (.error (.connectionError m), st, g, ⟨false, false⟩) := by
  rcases h with h | h
  · obtain ⟨m, hm⟩ := sanitizeCommand_ctrl cfg.command serverName h
    exact ⟨m, by simp [connectStdio, hm]⟩
  · rcases hsc : sanitizeCommand cfg.command serverName with e | t
    · obtain ⟨m, hm⟩ := sanitizeCommand_error_shape _ _ e hsc
      subst hm
      exact ⟨m, by simp [connectStdio, hsc]⟩
    · obtain ⟨m, hm⟩ := sanitizeArgsFrom_ctrl serverName cfg.args 0 h
      exact ⟨m, by simp [connectStdio, hsc, sanitizeArgs, hm]⟩

/-- Claim C6 (amended): whenever the TRIMMED command or any argument
contains a control character (NUL, CR or LF), `connect` fails at validation
with a `ConnectionError`, and neither the resolver's filesystem existence
check nor any transport construction/spawn is invoked for that attempt.
(As stated, the claim is false for untrimmed commands — see the
counterexample theorem: leading/trailing CR/LF are removed by `trim`
before the control-character check.) -/
theorem controlchar_blocks_connect (cfg : StdioConfig) (serverName : String) (env : SysEnv)
    (o : HandshakeOutcome) (fc : Bool) (st : FacadeState) (g : GlobalState)
    (h : hasControlChar (jsTrim cfg.command) = true ∨
      ∃ a ∈ cfg.args, hasControlChar a = true) :
    (∃ m, (connectFacade cfg serverName env o fc st g).1 = .error (.connectionError m)) ∧
    (connectFacade cfg serverName env o fc st g).2.2.2 = ⟨false, false⟩ := by
  by_cases hic : st.isConnected = true
  · refine ⟨⟨alreadyConnectedMsg serverName, ?_⟩, ?_⟩ <;> simp [connectFacade, hic]
  · obtain ⟨m, hm⟩ := connectStdio_invalid cfg serverName env o st g h
    refine ⟨⟨m, ?_⟩, ?_⟩ <;> simp [connectFacade, hic, hm]

/-- Claim C6 counterexample: the command `"ls\n"` contains LF, yet
`connect` trims it first, validation passes, the resolver IS invoked, and
the attempt even succeeds. -/
theorem lf_command_connects :
    hasControlChar "ls\n" = true ∧
    (connectFacade ⟨"ls\n", [], []⟩ "srv" envAllOk .success false freshFacade ⟨0⟩).1 =
      .ok () ∧
    (connectFacade ⟨"ls\n", [], []⟩ "srv" envAllOk .success false
        freshFacade ⟨0⟩).2.2.2.resolverInvoked = true :=
  ⟨by decide, rfl, rfl⟩

/-- Witness for `controlchar_blocks_connect`: an argument containing LF. -/
theorem controlchar_blocks_connect_witness :
    (∃ a ∈ ["x\ny"], hasControlChar a = true) ∧
    (∃ m, (connectFacade ⟨"node", ["x\ny"], []⟩ "srv" envAllOk .success false
        freshFacade ⟨0⟩).1 = .error (.connectionError m)) ∧
    (connectFacade ⟨"node", ["x\ny"], []⟩ "srv" envAllOk .success false
        freshFacade ⟨0⟩).2.2.2 = ⟨false, false⟩ :=
  ⟨⟨"x\ny", by simp, by decide⟩,
   (controlchar_blocks_connect ⟨"node", ["x\ny"], []⟩ "srv" envAllOk .success false
      freshFacade ⟨0⟩ (Or.inr ⟨"x\ny", by simp, by decide⟩)).1,
   (controlchar_blocks_connect ⟨"node", ["x\ny"], []⟩ "srv" envAllOk .success false
      freshFacade ⟨0⟩ (Or.inr ⟨"x\ny", by simp, by decide⟩)).2⟩

theorem mem_joinIssues_infix (s : String) (issues : List String) (h : s ∈ issues) :
    strMentions s (joinIssues issues) := by
  induction issues with
  | nil => cases h
  | cons a rest ih =>
    rcases List.mem_cons.mp h with rfl | h2
    · cases rest with
      | nil => exact ⟨[], [], by simp [joinIssues]⟩
      | cons b r =>
        exact ⟨[], ("; " ++ joinIssues (b :: r)).toList,
          by simp only [joinIssues, toList_of_append, List.append_assoc,
            List.append_nil, List.nil_append]⟩
    · cases rest with
      | nil => cases h2
      | cons b r =>
        obtain ⟨u, v, huv⟩ := ih h2
        rw [List.append_assoc] at huv
        refine ⟨(a ++ "; ").toList ++ u, v, ?_⟩
        simp only [joinIssues, toList_of_append, List.append_assoc, huv]

/-- Claim C7 (amended): a server label whose zod-trimmed form is empty or
contains a character outside `[a-zA-Z0-9._-]` (which covers interior
control characters) is rejected by the config parser — a pure function
that runs before anything can be resolved or spawned — with a
`ConfigError` whose message cites the offending server-name field (the
`mcpServers` key path) and the server label itself. (As stated the claim
is false: zod's `.trim()` runs before the pattern check, so labels whose
only offending characters are leading/trailing whitespace — including CR
and LF — are accepted; see the counterexample theorem.) -/
theorem invalid_trimmed_label_rejected (entries : List (String × StdioConfig))
    (name : String) (cfg : StdioConfig)
    (hmem : (name, cfg) ∈ entries)
    (hbad : (jsTrim name).length = 0 ∨
      ∃ c ∈ (jsTrim name).toList, isServerNameChar c = false) :
    configAccepted entries = false ∧
    ∃ msg, validateConfigNames entries = .error (.configError msg) ∧
      strMentions name msg ∧ strMentions "mcpServers." msg := by
  constructor
  · have hname : validServerName name = false := by
      unfold validServerName
      rcases hbad with h | ⟨c, hc, hcf⟩
      · simp [h]
      · have hall : (jsTrim name).toList.all isServerNameChar = false := by
          rw [Bool.eq_false_iff]
          intro hall
          have := List.all_eq_true.mp hall c hc
          rw [hcf] at this
          cases this
        show (decide (1 ≤ (jsTrim name).length) &&
          (jsTrim name).toList.all isServerNameChar) = false
        rw [hall, Bool.and_false]
    rw [Bool.eq_false_iff]
    intro hca
    have := List.all_eq_true.mp hca (name, cfg) hmem
    rw [Bool.and_eq_true] at this
    rw [hname] at this
    simp at this
  · have hshape : ∃ tail, ("mcpServers." ++ name ++ tail) ∈ serverNameIssues name := by
      rcases hbad with h | ⟨c, hc, hcf⟩
      · refine ⟨": Server name must not be empty", ?_⟩
        have h1 : ¬ (1 ≤ (jsTrim name).length) := by omega
        simp only [serverNameIssues]
        rw [if_neg h1]
        exact List.mem_append_left _ (by simp)
      · refine ⟨": Server names may only contain letters, numbers, \".\", \"-\", and \"_\"", ?_⟩
        have h2 : ¬ (1 ≤ (jsTrim name).length ∧
            (jsTrim name).toList.all isServerNameChar = true) := by
          rintro ⟨-, hall⟩
          have := List.all_eq_true.mp hall c hc
          rw [hcf] at this
          cases this
        simp only [serverNameIssues]
        rw [if_neg h2]
        exact List.mem_append_right _ (by simp)
    obtain ⟨tail, htail⟩ := hshape
    have hmemflat : ("mcpServers." ++ name ++ tail) ∈
        (entries.map (fun e => serverNameIssues e.1)).flatten := by
      rw [List.mem_flatten]
      exact ⟨serverNameIssues name, List.mem_map.mpr ⟨(name, cfg), hmem, rfl⟩, htail⟩
    cases hflat : (entries.map (fun e => serverNameIssues e.1)).flatten with
    | nil => rw [hflat] at hmemflat; cases hmemflat
    | cons x xs =>
      have h2 : strMentions ("mcpServers." ++ name ++ tail) (joinIssues (x :: xs)) := by
        apply mem_joinIssues_infix
        rw [← hflat]
        exact hmemflat
      have h3 : strMentions (joinIssues (x :: xs)) (invalidConfigMsg (x :: xs)) :=
        ⟨"Invalid MCP configuration: ".toList, [],
          by simp [invalidConfigMsg, toList_of_append]⟩
      refine ⟨invalidConfigMsg (x :: xs), ?_, ?_, ?_⟩
      · unfold validateConfigNames
        rw [hflat]
      · have h1 : strMentions name ("mcpServers." ++ name ++ tail) :=
          ⟨"mcpServers.".toList, tail.toList,
            by simp [toList_of_append, List.append_assoc]⟩
        exact (h1.trans h2).trans h3
      · have h1 : strMentions "mcpServers." ("mcpServers." ++ name ++ tail) :=
          ⟨[], (name ++ tail).toList, by simp [toList_of_append, List.append_assoc]⟩
        exact (h1.trans h2).trans h3

/-- Claim C7 counterexample: the label `"srv\\n"` contains LF — a control
character and a character outside `[a-zA-Z0-9._-]` — yet the parser trims
the key first and accepts the configuration. -/
theorem trailing_lf_label_accepted :
    hasControlChar "srv\n" = true ∧
    configAccepted [("srv\n", ⟨"node", [], []⟩)] = true := ⟨by decide, by decide⟩

/-- Witness for `invalid_trimmed_label_rejected`: a label with an interior
space; the rejection message cites the `mcpServers` field and the label. -/
theorem invalid_trimmed_label_rejected_witness :
    (("a b", (⟨"node", [], []⟩ : StdioConfig)) ∈
      [("a b", (⟨"node", [], []⟩ : StdioConfig))]) ∧
    (∃ c ∈ (jsTrim "a b").toList, isServerNameChar c = false) ∧
    (configAccepted [("a b", ⟨"node", [], []⟩)] = false ∧
     ∃ msg, validateConfigNames [("a b", ⟨"node", [], []⟩)] = .error (.configError msg) ∧
       strMentions "a b" msg ∧ strMentions "mcpServers." msg) :=
  ⟨by simp, ⟨' ', by decide, by decide⟩,
   invalid_trimmed_label_rejected _ "a b" ⟨"node", [], []⟩ (by simp)
     (Or.inr ⟨' ', by decide, by decide⟩)⟩

/-- Claim C8: a STDIO server entry with more than 64 arguments is rejected
by the parser schema (`.max(MAX_ARGS)`), regardless of whether each
individual argument is within the 2048-character limit and free of control
characters. -/
theorem too_many_args_rejected (command : String) (args : List String)
    (envPairs : List (String × String)) (h : args.length > 64) :
    stdioConfigAccepted ⟨command, args, envPairs⟩ = false := by
  unfold stdioConfigAccepted validStdioArgs
  have hlen : decide (args.length ≤ 64) = false := by
    simp only [decide_eq_false_iff_not]
    omega
  simp [hlen]

/-- Witness for `too_many_args_rejected`: 65 well-formed arguments. -/
theorem too_many_args_rejected_witness :
    (List.replicate 65 "a").length > 64 ∧
    stdioConfigAccepted ⟨"node", List.replicate 65 "a", []⟩ = false :=
  ⟨by simp, too_many_args_rejected "node" (List.replicate 65 "a") [] (by simp)⟩


theorem mentions_notFound_command (command serverName : String) :
    strMentions command (notFoundInPathMsg command serverName) := by
  unfold strMentions notFoundInPathMsg
  refine ⟨"Executable \"".toList,
    ("\" for server \"" ++ (serverName ++ "\" was not found in PATH")).toList, ?_⟩
  simp [toList_of_append, List.append_assoc]

theorem mentions_notFound_server (command serverName : String) :
    strMentions serverName (notFoundInPathMsg command serverName) := by
  unfold strMentions notFoundInPathMsg
  refine ⟨("Executable \"" ++ command ++ "\" for server \"").toList,
    "\" was not found in PATH".toList, ?_⟩
  simp [toList_of_append, List.append_assoc]

theorem findExecutable_first_hit (dirs : List String) (command : String)
    (fileOk : String → Bool) :
    findExecutable dirs command [""] fileOk =
      (dirs.find? (fun d => fileOk (pathJoin d command))).map
        (fun d => pathJoin d command) := by
  induction dirs with
  | nil => rfl
  | cons d rest ih =>
    unfold findExecutable
    have hc : buildExecutableCandidates d command [""] = [pathJoin d command] := by
      simp [buildExecutableCandidates]
    rw [hc]
    by_cases hd : fileOk (pathJoin d command) = true
    · simp [List.find?, hd]
    · simp only [Bool.not_eq_true] at hd
      simp [List.find?, hd, ih]

/-- Claim C9: for a bare command (no path separator) and a defined,
non-empty search path: if some directory of the (order-preserving,
empty-filtered) split of `PATH` contains an accessible candidate
(directory joined with the command; the single empty suffix applies on
POSIX), resolution succeeds, and the search hits exactly the FIRST such
directory in order (`List.find?`); if no directory contains one,
resolution fails with the not-found `ConnectionError` naming both the
command and the server label. -/
theorem bare_command_resolution (command serverName pathEnv cwd : String)
    (fileOk : String → Bool)
    (hbare : command.toList.any isPathSep = false)
    (hpe : pathEnv ≠ "") :
    ((∃ d ∈ (splitStr pathEnv (fun c => c == ':')).filter (fun d => d ≠ ""),
        fileOk (pathJoin d command) = true) →
      ensureExecutableAvailable command serverName ⟨some pathEnv, cwd, fileOk⟩ = .ok ()) ∧
    ((∀ d ∈ (splitStr pathEnv (fun c => c == ':')).filter (fun d => d ≠ ""),
        fileOk (pathJoin d command) = false) →
      ensureExecutableAvailable command serverName ⟨some pathEnv, cwd, fileOk⟩ =
        .error (.connectionError (notFoundInPathMsg command serverName)) ∧
      strMentions command (notFoundInPathMsg command serverName) ∧
      strMentions serverName (notFoundInPathMsg command serverName)) ∧
    findExecutable ((splitStr pathEnv (fun c => c == ':')).filter (fun d => d ≠ ""))
        command (getExecutableExtensions command) fileOk =
      (((splitStr pathEnv (fun c => c == ':')).filter (fun d => d ≠ "")).find?
          (fun d => fileOk (pathJoin d command))).map (fun d => pathJoin d command) := by
  have hchar := findExecutable_first_hit
    ((splitStr pathEnv (fun c => c == ':')).filter (fun d => d ≠ "")) command fileOk
  refine ⟨?_, ?_, hchar⟩
  · intro hex
    have hsome : (((splitStr pathEnv (fun c => c == ':')).filter (fun d => d ≠ "")).find?
        (fun d => fileOk (pathJoin d command))).isSome := by
      rw [List.find?_isSome]
      obtain ⟨d, hd, hok⟩ := hex
      exact ⟨d, hd, hok⟩
    obtain ⟨d0, hd0⟩ := Option.isSome_iff_exists.mp hsome
    unfold ensureExecutableAvailable
    rw [hbare]
    simp only [Bool.false_eq_true, if_false, hpe, if_neg hpe]
    simp only [getExecutableExtensions]
    rw [hchar, hd0]
    rfl
  · intro hnone
    have hn : ((splitStr pathEnv (fun c => c == ':')).filter (fun d => d ≠ "")).find?
        (fun d => fileOk (pathJoin d command)) = none := by
      rw [List.find?_eq_none]
      intro d hd
      rw [hnone d hd]
      simp
    refine ⟨?_, mentions_notFound_command command serverName,
      mentions_notFound_server command serverName⟩
    unfold ensureExecutableAvailable
    rw [hbare]
    simp only [Bool.false_eq_true, if_false, if_neg hpe]
    simp only [getExecutableExtensions]
    rw [hchar, hn]
    rfl

/-- Witness for `bare_command_resolution`: `node` exists only in `/bin` of
`/usr/local/bin:/bin`. -/
theorem bare_command_resolution_witness :
    ("node".toList.any isPathSep = false) ∧
    ("/usr/local/bin:/bin" ≠ "") ∧
    (∃ d ∈ (splitStr "/usr/local/bin:/bin" (fun c => c == ':')).filter (fun d => d ≠ ""),
        (fun s => s == "/bin/node") (pathJoin d "node") = true) ∧
    ensureExecutableAvailable "node" "srv"
        ⟨some "/usr/local/bin:/bin", "/", fun s => s == "/bin/node"⟩ = .ok () :=
  ⟨by decide, by decide, ⟨"/bin", by decide, by decide⟩,
   (bare_command_resolution "node" "srv" "/usr/local/bin:/bin" "/"
      (fun s => s == "/bin/node") (by decide) (by decide)).1
     ⟨"/bin", by decide, by decide⟩⟩

/-- Claim C10 (amended): for an array content, `callTool` returns the first
element when that element is neither `null` nor `undefined`, discarding the
rest; the empty array, a `null`/`undefined` content, and a first element
that is itself `null` or `undefined` all yield the empty object `{}`
(nullish coalescing). -/
theorem callTool_array_first (x : JsonValue) (xs : List JsonValue)
    (hn : x ≠ JsonValue.nullV) (hu : x ≠ JsonValue.undef) :
    callToolContent (.arrV (x :: xs)) = x ∧
    callToolContent (.arrV []) = emptyObj ∧
    callToolContent .nullV = emptyObj ∧
    callToolContent .undef = emptyObj ∧
    (∀ (y : JsonValue) (ys : List JsonValue), y = JsonValue.nullV ∨ y = JsonValue.undef →
      callToolContent (.arrV (y :: ys)) = emptyObj) := by
  refine ⟨?_, rfl, rfl, rfl, ?_⟩
  · cases x <;> first | rfl | exact absurd rfl hn | exact absurd rfl hu
  · rintro y ys (rfl | rfl) <;> rfl

/-- Claim C10 counterexample: for content `[null]` the façade returns `{}`,
not the array's first element `null`. -/
theorem callTool_null_first_element :
    callToolContent (.arrV [JsonValue.nullV]) = emptyObj ∧
    emptyObj ≠ JsonValue.nullV :=
  ⟨rfl, fun h => JsonValue.noConfusion h⟩

/-- Witness for `callTool_array_first` at a string first element. -/
theorem callTool_array_first_witness :
    (JsonValue.strV "r" ≠ JsonValue.nullV) ∧
    (JsonValue.strV "r" ≠ JsonValue.undef) ∧
    (callToolContent (.arrV [JsonValue.strV "r", JsonValue.boolV true]) =
        JsonValue.strV "r" ∧
      callToolContent (.arrV []) = emptyObj ∧
      callToolContent .nullV = emptyObj ∧
      callToolContent .undef = emptyObj ∧
      (∀ (y : JsonValue) (ys : List JsonValue), y = JsonValue.nullV ∨ y = JsonValue.undef →
        callToolContent (.arrV (y :: ys)) = emptyObj)) :=
  ⟨fun h => JsonValue.noConfusion h, fun h => JsonValue.noConfusion h,
   callTool_array_first (JsonValue.strV "r") [JsonValue.boolV true]
     (fun h => JsonValue.noConfusion h) (fun h => JsonValue.noConfusion h)⟩
